import Mathlib

/-!
Verification of `uithoorn_checker.py` (Uithoorn gym availability checker).

The Python source is shallowly embedded below.  Calendar dates are modelled as
proleptic-Gregorian ordinals (`Int`), exactly the value `datetime.date.toordinal`
returns: ordinal 1 is 0001-01-01, a Monday, so Python's `date.weekday()`
(Monday = 0) is `(d - 1) % 7`.  Strings are Lean `String`s; the character-level
operations of the source (`str.strip`, `str.replace`, `str.split`) are embedded
as structurally recursive functions on `List Char` so that they evaluate inside
the kernel.  The Selenium-driven parts are embedded as functions over an
injected surface that records, per driver call, whether the call succeeds and
what text it yields, mirroring the control flow of the source line by line.
-/

namespace Uithoorn

/-- `TARGET_WINDOWS` from the source: weekday (Monday = 0) to list of
(start, end) time windows. -/
def TARGET_WINDOWS : List (Nat × List (String × String)) :=
  [(0, [("20:00", "21:30")]),
   (3, [("20:00", "21:30")]),
   (5, [("17:00", "18:30")]),
   (6, [("14:00", "15:30"), ("15:30", "17:00")])]

/-- Python `date.weekday()` on the ordinal-day model: Monday = 0. -/
def weekday (d : Int) : Int := (d - 1) % 7

/-- `get_target_dates_two_weeks_ahead` from the source:
`future = today + 14`, `monday = future - future.weekday()`, and one entry
`wd ↦ monday + wd` per key of `TARGET_WINDOWS` (dict insertion order). -/
def get_target_dates_two_weeks_ahead (today : Int) : List (Nat × Int) :=
  let future := today + 14
  let monday := future - weekday future
  TARGET_WINDOWS.map (fun p => (p.1, monday + (p.1 : Int)))

/-- `TARGET_WINDOWS.get(wd, [])` from the source's main loop. -/
def targetsFor (wd : Nat) : List (String × String) :=
  ((TARGET_WINDOWS.find? (fun p => p.1 == wd)).map Prod.snd).getD []

/-! ### String processing (`read_available_times` internals) -/

/-- The characters Python's `str.strip()` removes (those with `str.isspace()`
true): ASCII whitespace, the C1 and Unicode space separators, including the
non-breaking space U+00A0. -/
def pyIsSpace (c : Char) : Bool :=
  [' ', '\t', '\n', '\r', '\x0b', '\x0c', '\x1c', '\x1d', '\x1e', '\x1f',
   '\x85', '\u00a0', '\u1680', '\u2000', '\u2001', '\u2002', '\u2003',
   '\u2004', '\u2005', '\u2006', '\u2007', '\u2008', '\u2009', '\u200a',
   '\u2028', '\u2029', '\u202f', '\u205f', '\u3000'].contains c

/-- Python `str.strip()` on a character list: drop leading and trailing
whitespace. -/
def pyStripChars (l : List Char) : List Char :=
  ((l.dropWhile pyIsSpace).reverse.dropWhile pyIsSpace).reverse

/-- Python `str.strip()`. -/
def pyStrip (s : String) : String := ⟨pyStripChars s.data⟩

/-- The dash replacement in `read_available_times`:
`.replace('\u2013', '-').replace('\u2013', '-').replace('\u2014', '-')` — the first two
replacements are both the en dash U+2013, the third is the em dash U+2014. -/
def replaceDashes (s : String) : String :=
  ⟨s.data.map (fun c => if c = '\u2013' ∨ c = '\u2014' then '-' else c)⟩

/-- Python `str.split('-')`: split on every ASCII hyphen, keeping empty
pieces. -/
def splitOnDash : List Char → List (List Char)
  | [] => [[]]
  | '-' :: rest => [] :: splitOnDash rest
  | c :: rest =>
    match splitOnDash rest with
    | [] => [[c]]
    | h :: t => (c :: h) :: t

/-- The per-element body of the loop in `read_available_times`:
`txt = el.text.strip().replace(...)`; if `'-' in txt`, split on `'-'`, strip
each part, and keep the pair when there are exactly two parts. -/
def parseSlotLabel (raw : String) : Option (String × String) :=
  let txt := replaceDashes (pyStrip raw)
  if txt.data.contains '-' then
    match (splitOnDash txt.data).map pyStripChars with
    | [a, b] => some (⟨a⟩, ⟨b⟩)
    | _ => none
  else none

/-- The XPath filter selecting time-chip elements in `read_available_times`:
`contains(text(), ':') and (contains(text(), '\u2013') or contains(text(), '-'))`
(the source literal `'\u2013'` is the en dash U+2013). -/
def xpathTimeFilter (t : String) : Bool :=
  t.data.contains ':' && (t.data.contains '\u2013' || t.data.contains '-')

/-- Strict lexicographic order on character lists by code point — how Python
compares strings. -/
def charListLt : List Char → List Char → Bool
  | _, [] => false
  | [], _ :: _ => true
  | a :: as, b :: bs =>
    decide (a.toNat < b.toNat) || (a == b && charListLt as bs)

/-- Python `a < b` on strings. -/
def strLt (a b : String) : Bool := charListLt a.data b.data

/-- Python `a <= b` on strings. -/
def strLe (a b : String) : Bool := charListLt a.data b.data || a == b

theorem char_toNat_injective {a b : Char} (h : a.toNat = b.toNat) : a = b := by
  apply Char.eq_of_val_eq
  apply UInt32.eq_of_toBitVec_eq
  exact BitVec.eq_of_toNat_eq h

theorem charListLt_trans :
    ∀ {a b c : List Char}, charListLt a b = true → charListLt b c = true →
      charListLt a c = true
  | a, b, [], _, hbc => by cases b <;> simp [charListLt] at hbc
  | [], b, _ :: _, _, _ => by simp [charListLt]
  | _ :: _, [], _, hab, _ => by simp [charListLt] at hab
  | a :: as, b :: bs, c :: cs, hab, hbc => by
    simp only [charListLt, Bool.or_eq_true, Bool.and_eq_true, decide_eq_true_eq,
      beq_iff_eq] at hab hbc ⊢
    rcases hab with h1 | ⟨h1, h1t⟩ <;> rcases hbc with h2 | ⟨h2, h2t⟩
    · exact Or.inl (Nat.lt_trans h1 h2)
    · exact Or.inl (h2 ▸ h1)
    · exact Or.inl (h1 ▸ h2)
    · exact Or.inr ⟨h1.trans h2, charListLt_trans h1t h2t⟩

theorem charListLt_connex :
    ∀ a b : List Char, charListLt a b = true ∨ a = b ∨ charListLt b a = true
  | [], [] => Or.inr (Or.inl rfl)
  | [], _ :: _ => Or.inl (by simp [charListLt])
  | _ :: _, [] => Or.inr (Or.inr (by simp [charListLt]))
  | a :: as, b :: bs => by
    simp only [charListLt, Bool.or_eq_true, Bool.and_eq_true, decide_eq_true_eq,
      beq_iff_eq, List.cons.injEq]
    rcases Nat.lt_trichotomy a.toNat b.toNat with h | h | h
    · exact Or.inl (Or.inl h)
    · have hab : a = b := char_toNat_injective h
      rcases charListLt_connex as bs with ht | ht | ht
      · exact Or.inl (Or.inr ⟨hab, ht⟩)
      · exact Or.inr (Or.inl ⟨hab, ht⟩)
      · exact Or.inr (Or.inr (Or.inr ⟨hab.symm, ht⟩))
    · exact Or.inr (Or.inr (Or.inl h))

/-- Lexicographic order on `(start, end)` pairs, as Python's `sorted` compares
tuples of strings. -/
def slotLe (a b : String × String) : Prop :=
  strLt a.1 b.1 = true ∨ (a.1 = b.1 ∧ strLe a.2 b.2 = true)

instance : DecidableRel slotLe := fun a b =>
  inferInstanceAs (Decidable (strLt a.1 b.1 = true ∨ (a.1 = b.1 ∧ strLe a.2 b.2 = true)))

theorem strLt_trans {a b c : String} (hab : strLt a b = true)
    (hbc : strLt b c = true) : strLt a c = true :=
  charListLt_trans hab hbc

theorem strLe_trans {a b c : String} (hab : strLe a b = true)
    (hbc : strLe b c = true) : strLe a c = true := by
  simp only [strLe, Bool.or_eq_true, beq_iff_eq] at hab hbc ⊢
  rcases hab with h1 | h1 <;> rcases hbc with h2 | h2
  · exact Or.inl (charListLt_trans h1 h2)
  · exact Or.inl (h2 ▸ h1)
  · exact Or.inl (h1 ▸ h2)
  · exact Or.inr (h1.trans h2)

theorem strLt_connex (a b : String) :
    strLt a b = true ∨ a = b ∨ strLt b a = true := by
  rcases charListLt_connex a.data b.data with h | h | h
  · exact Or.inl h
  · exact Or.inr (Or.inl (by cases a; cases b; exact congrArg String.mk h))
  · exact Or.inr (Or.inr h)

instance : IsTotal (String × String) slotLe where
  total a b := by
    unfold slotLe
    rcases strLt_connex a.1 b.1 with h | h | h
    · exact Or.inl (Or.inl h)
    · rcases strLt_connex a.2 b.2 with h2 | h2 | h2
      · exact Or.inl (Or.inr ⟨h, by simp only [strLe, Bool.or_eq_true]; exact Or.inl h2⟩)
      · exact Or.inl (Or.inr ⟨h, by simp [strLe, h2]⟩)
      · exact Or.inr (Or.inr ⟨h.symm, by simp only [strLe, Bool.or_eq_true]; exact Or.inl h2⟩)
    · exact Or.inr (Or.inl h)

instance : IsTrans (String × String) slotLe where
  trans a b c hab hbc := by
    unfold slotLe at *
    rcases hab with h1 | ⟨h1, h1b⟩ <;> rcases hbc with h2 | ⟨h2, h2b⟩
    · exact Or.inl (strLt_trans h1 h2)
    · exact Or.inl (h2 ▸ h1)
    · exact Or.inl (h1 ▸ h2)
    · exact Or.inr ⟨h1.trans h2, strLe_trans h1b h2b⟩

/-- `read_available_times` from the source, as a function of the texts of the
elements the XPath selects inside the time-chip container: filter for
time-range-shaped texts, parse each to a `(start, end)` pair, then
`sorted(list(set(results)))` (deduplicate and sort). -/
def read_available_times (texts : List String) : List (String × String) :=
  let results := (texts.filter xpathTimeFilter).filterMap parseSlotLabel
  List.insertionSort slotLe results.dedup

/-- `match_targets` from the source: keep the targets that are members of the
set of available pairs. -/
def match_targets (available targets : List (String × String)) :
    List (String × String) :=
  targets.filter (fun t => decide (t ∈ available))

/-! ### Day selection (`pick_date`) over a model of the calendar grid -/

/-- `needle` occurs at the start of `hay`. -/
def startsWithChars : List Char → List Char → Bool
  | [], _ => true
  | _ :: _, [] => false
  | a :: as, b :: bs => a == b && startsWithChars as bs

/-- XPath `contains(hay, needle)`: substring test. -/
def containsChars (needle : List Char) : List Char → Bool
  | [] => startsWithChars needle []
  | c :: rest => startsWithChars needle (c :: rest) || containsChars needle rest

/-- A DOM element of the calendar grid as the XPaths in `pick_date` see it:
its tag, `class` and `role` attributes, its own `normalize-space()` text, the
`normalize-space()` texts of its descendants, and — ground truth invisible to
the XPaths — whether the cell belongs to the currently displayed month. -/
structure DomElem where
  tag : String
  className : String
  role : String
  ownText : String
  descTexts : List String
  inDisplayedMonth : Bool
deriving DecidableEq

/-- `pick_date` from the source: the primary XPath takes any `td` whose class
does not contain `'disabled'` with a descendant whose normalized text is the
day number, or any `button`/`a` with role `gridcell`/`button` and that text;
if that finds nothing, the fallback takes any element with that text.  The
first candidate is clicked (`candidates[0].click()`); with no candidate a
`RuntimeError` is raised (`none`). -/
def pick_date (cells : List DomElem) (day : Nat) : Option DomElem :=
  let dayStr := toString day
  let primary := cells.filter (fun c =>
    (c.tag == "td" && !(containsChars "disabled".data c.className.data) &&
      c.descTexts.contains dayStr) ||
    ((c.tag == "button" || c.tag == "a") &&
      (c.role == "gridcell" || c.role == "button") && c.ownText == dayStr))
  let cands := if primary.isEmpty then
    cells.filter (fun c => c.ownText == dayStr)
  else primary
  cands.head?

/-! ### The orchestrator (`main`) over an injected automation surface -/

/-- A `Slot` as in the source: a date with a start and end time. -/
structure Slot where
  date : Int
  startT : String
  endT : String
deriving DecidableEq

/-- The driver calls `select_duration` makes, as success flags: the initial
dropdown click, the `<select>` path (`Select(...).select_by_visible_text`,
whose failure is swallowed by a bare `except`), the custom list-item click
(likewise swallowed), and the final fallback click (whose failure
propagates). -/
structure DurationSurface where
  dropdownClickOk : Bool
  selectPathOk : Bool
  listItemClickOk : Bool
  fallbackClickOk : Bool
deriving DecidableEq

/-- `select_duration` from the source: the first click must succeed, after
which any one of the three lookup paths finding the `"1,5 uur"` option
suffices; if all three fail the final exception propagates (`false`). -/
def select_duration (d : DurationSurface) : Bool :=
  d.dropdownClickOk && (d.selectPathOk || d.listItemClickOk || d.fallbackClickOk)

/-- The behaviour of the external automation surface for one run:
whether `driver.set_page_load_timeout` succeeds, whether `driver.get`
succeeds, the duration-control behaviour, and per target date the combined
outcome of `go_to_month`/`pick_date`/`read_available_times` — `none` when one
of them raises, otherwise the texts of the time-chip elements read. -/
structure Surface where
  setTimeoutOk : Bool
  pageLoadOk : Bool
  dur : DurationSurface
  nav : Int → Option (List String)

/-- Run events, in temporal order: session acquisition (`build_driver`),
the one-time duration selection, the per-date scan (success or raised
failure), and session release (`driver.quit()` in the `finally`). -/
inductive Ev where
  | acquire
  | durationSelected
  | scanOk (d : Int)
  | scanFail (d : Int)
  | release
deriving DecidableEq

/-- `sorted(target_dates.items())` from the source's main loop: Python sorts
the `(weekday, date)` pairs lexicographically. -/
def keyLe (a b : Nat × Int) : Prop :=
  a.1 < b.1 ∨ (a.1 = b.1 ∧ a.2 ≤ b.2)

instance : DecidableRel keyLe := fun a b =>
  inferInstanceAs (Decidable (a.1 < b.1 ∨ (a.1 = b.1 ∧ a.2 ≤ b.2)))

/-- The date list the main loop iterates: `sorted(target_dates.items())`. -/
def sorted_target_dates (today : Int) : List (Nat × Int) :=
  List.insertionSort keyLe (get_target_dates_two_weeks_ahead today)

/-- The body of the source's `for wd, date_obj in sorted(...)` loop: navigate
and read (`s.nav d`), on success match the parsed available times against the
weekday's windows and accumulate `Slot`s; an exception (`none`) propagates,
ending the loop.  Returns (processed dates, accumulated hits, an exception
was raised, events). -/
def scanDates (s : Surface) : List (Nat × Int) → List Int × List Slot × Bool × List Ev
  | [] => ([], [], false, [])
  | (wd, d) :: rest =>
    match s.nav d with
    | none => ([], [], true, [Ev.scanFail d])
    | some texts =>
      let hits := match_targets (read_available_times texts) (targetsFor wd)
      let r := scanDates s rest
      (d :: r.1, hits.map (fun p => ⟨d, p.1, p.2⟩) ++ r.2.1,
       r.2.2.1, Ev.scanOk d :: r.2.2.2)

/-- The observable outcome of one run of `main`. -/
structure RunOutcome where
  processed : List Int
  hits : List Slot
  err : Bool
  events : List Ev
deriving DecidableEq

/-- `main` from the source:
`driver = build_driver(...)` (acquire), then `driver.set_page_load_timeout(60)`
*outside* the `try` block, then inside `try`: `driver.get`, the
exception-swallowing `login_if_needed` and `open_facility`, the one-time
`select_duration`, and the per-date loop; the `finally` block runs
`driver.quit()` whenever the `try` block was entered. -/
def main (today : Int) (s : Surface) : RunOutcome :=
  if s.setTimeoutOk = false then
    { processed := [], hits := [], err := true, events := [Ev.acquire] }
  else if s.pageLoadOk = false then
    { processed := [], hits := [], err := true, events := [Ev.acquire, Ev.release] }
  else if select_duration s.dur = false then
    { processed := [], hits := [], err := true, events := [Ev.acquire, Ev.release] }
  else
    let r := scanDates s (sorted_target_dates today)
    { processed := r.1, hits := r.2.1, err := r.2.2.1,
      events := Ev.acquire :: Ev.durationSelected :: r.2.2.2 ++ [Ev.release] }

/-- Is an event a per-date scan event? -/
def isScanEv : Ev → Bool
  | Ev.scanOk _ => true
  | Ev.scanFail _ => true
  | _ => false

/-! ### Concrete behaviours used as test inputs -/

/-- A duration control on which every lookup path succeeds. -/
def durAllOk : DurationSurface :=
  { dropdownClickOk := true, selectPathOk := true, listItemClickOk := true,
    fallbackClickOk := true }

/-- A surface whose navigation fails (on every attempt) for ordinal date 15 —
the Monday scanned when today is ordinal 1 — and succeeds for every other
date. -/
def sMonFail : Surface :=
  { setTimeoutOk := true, pageLoadOk := true, dur := durAllOk,
    nav := fun d => if d = 15 then none else some ["20:00 - 21:30"] }

/-- A surface whose navigation fails only for ordinal date 18 — the Thursday
scanned when today is ordinal 1. -/
def sThuFail : Surface :=
  { setTimeoutOk := true, pageLoadOk := true, dur := durAllOk,
    nav := fun d => if d = 18 then none else some [] }

/-- A surface on which the duration option `"1,5 uur"` is nowhere to be
found: the dropdown opens but all three lookup paths fail. -/
def sDurFail : Surface :=
  { setTimeoutOk := true, pageLoadOk := true,
    dur := { dropdownClickOk := true, selectPathOk := false,
             listItemClickOk := false, fallbackClickOk := false },
    nav := fun _ => some [] }

/-- A fully co-operative surface. -/
def sAllOk : Surface :=
  { setTimeoutOk := true, pageLoadOk := true, dur := durAllOk,
    nav := fun _ => some [] }

/-- A fully co-operative surface whose every date shows one available
slot. -/
def sC7ok : Surface :=
  { setTimeoutOk := true, pageLoadOk := true, dur := durAllOk,
    nav := fun _ => some ["20:00 - 21:30"] }

/-- A surface on which `driver.set_page_load_timeout(60)` — the one driver
call between session acquisition and the `try` block — raises. -/
def sNoTimeout : Surface :=
  { setTimeoutOk := false, pageLoadOk := true, dur := durAllOk,
    nav := fun _ => some [] }

/-- An adjacent-month "overflow" padding cell of the calendar grid showing
day 30: it is a `td`, its class does not contain `'disabled'`, and it does
not belong to the currently displayed month. -/
def overflowCell : DomElem :=
  { tag := "td", className := "day outside-month", role := "", ownText := "30",
    descTexts := ["30"], inDisplayedMonth := false }

/-- The genuine day-30 cell of the currently displayed month. -/
def currentMonthCell : DomElem :=
  { tag := "td", className := "day", role := "", ownText := "30",
    descTexts := ["30"], inDisplayedMonth := true }

/-! ### Helper lemmas -/

/-- `sorted(target_dates.items())` is the resolver's list unchanged: the dict
is built in ascending key order 0, 3, 5, 6. -/
theorem sorted_target_dates_eq (today : Int) :
    sorted_target_dates today = get_target_dates_two_weeks_ahead today := rfl

theorem scanDates_all_ok (s : Surface) :
    ∀ l : List (Nat × Int), (∀ p ∈ l, s.nav p.2 ≠ none) →
      (scanDates s l).1 = l.map Prod.snd ∧ (scanDates s l).2.2.1 = false
  | [], _ => by simp [scanDates]
  | (wd, d) :: rest, h => by
    have hd := h (wd, d) (List.mem_cons_self _ _)
    obtain ⟨texts, htexts⟩ := Option.ne_none_iff_exists.mp hd
    have ih := scanDates_all_ok s rest (fun p hp => h p (List.mem_cons_of_mem _ hp))
    simp only [scanDates, ← htexts, List.map_cons]
    exact ⟨by rw [ih.1], ih.2⟩

theorem scanDates_failAt (s : Surface) (wd : Nat) (d : Int)
    (rest : List (Nat × Int)) (hd : s.nav d = none) :
    ∀ pre : List (Nat × Int), (∀ p ∈ pre, s.nav p.2 ≠ none) →
      (scanDates s (pre ++ (wd, d) :: rest)).1 = pre.map Prod.snd ∧
      (scanDates s (pre ++ (wd, d) :: rest)).2.2.1 = true
  | [], _ => by simp [scanDates, hd]
  | (wd0, d0) :: pre, h => by
    have hd0 := h (wd0, d0) (List.mem_cons_self _ _)
    obtain ⟨texts, htexts⟩ := Option.ne_none_iff_exists.mp hd0
    have ih := scanDates_failAt s wd d rest hd pre
      (fun p hp => h p (List.mem_cons_of_mem _ hp))
    simp only [List.cons_append, scanDates, ← htexts, List.map_cons]
    exact ⟨by rw [List.append_eq, ih.1], ih.2⟩

theorem scanDates_events_scan (s : Surface) :
    ∀ l : List (Nat × Int), ∀ e ∈ (scanDates s l).2.2.2, isScanEv e = true
  | [], e, he => by simp [scanDates] at he
  | (wd, d) :: rest, e, he => by
    rcases hnav : s.nav d with _ | texts
    · simp only [scanDates, hnav, List.mem_singleton] at he
      simp [he, isScanEv]
    · simp only [scanDates, hnav, List.mem_cons] at he
      rcases he with he | he
      · simp [he, isScanEv]
      · exact scanDates_events_scan s rest e he

theorem main_pageLoad_fail (today : Int) (s : Surface)
    (h1 : s.setTimeoutOk = true) (h2 : s.pageLoadOk = false) :
    main today s =
      { processed := [], hits := [], err := true,
        events := [Ev.acquire, Ev.release] } := by
  unfold main
  rw [h1, h2]
  rfl

theorem main_dur_fail (today : Int) (s : Surface)
    (h1 : s.setTimeoutOk = true) (h2 : s.pageLoadOk = true)
    (h3 : select_duration s.dur = false) :
    main today s =
      { processed := [], hits := [], err := true,
        events := [Ev.acquire, Ev.release] } := by
  unfold main
  rw [h1, h2, h3]
  rfl

theorem main_full (today : Int) (s : Surface)
    (h1 : s.setTimeoutOk = true) (h2 : s.pageLoadOk = true)
    (h3 : select_duration s.dur = true) :
    main today s =
      { processed := (scanDates s (sorted_target_dates today)).1,
        hits := (scanDates s (sorted_target_dates today)).2.1,
        err := (scanDates s (sorted_target_dates today)).2.2.1,
        events := Ev.acquire :: Ev.durationSelected ::
          (scanDates s (sorted_target_dates today)).2.2.2 ++ [Ev.release] } := by
  unfold main
  rw [h1, h2, h3]
  rfl

/-- Membership in the output of `read_available_times` is exactly "the parse
of some selected element text". -/
theorem mem_read_available_times (texts : List String) (p : String × String) :
    p ∈ read_available_times texts ↔
      ∃ t ∈ texts, xpathTimeFilter t = true ∧ parseSlotLabel t = some p := by
  unfold read_available_times
  rw [(List.perm_insertionSort slotLe _).mem_iff, List.mem_dedup,
    List.mem_filterMap]
  constructor
  · rintro ⟨t, ht, hp⟩
    rw [List.mem_filter] at ht
    exact ⟨t, ht.1, ht.2, hp⟩
  · rintro ⟨t, ht, hf, hp⟩
    exact ⟨t, List.mem_filter.mpr ⟨ht, hf⟩, hp⟩

/-! ### Claim theorems -/

/-- C1: for every calendar date `today`, `get_target_dates_two_weeks_ahead`
returns exactly one date per configured target weekday (0, 3, 5, 6), the
weekday of each returned date equals its key, all returned dates lie within
the Monday-anchored 7-day week containing `today + 14` (whose Monday is
`today + 14 - weekday (today + 14)`), and that Monday falls at least 8 and at
most 14 days after `today`, both bounds being attained (at a Monday resp. a
Sunday `today`). -/
theorem C1_date_resolver (today : Int) :
    ((get_target_dates_two_weeks_ahead today).map Prod.fst = [0, 3, 5, 6]) ∧
    (∀ p ∈ get_target_dates_two_weeks_ahead today, weekday p.2 = (p.1 : Int)) ∧
    (∀ p ∈ get_target_dates_two_weeks_ahead today,
      today + 14 - weekday (today + 14) ≤ p.2 ∧
      p.2 ≤ today + 14 - weekday (today + 14) + 6) ∧
    weekday (today + 14 - weekday (today + 14)) = 0 ∧
    8 ≤ today + 14 - weekday (today + 14) - today ∧
    today + 14 - weekday (today + 14) - today ≤ 14 ∧
    (1 : Int) + 14 - weekday (1 + 14) - 1 = 14 ∧
    (7 : Int) + 14 - weekday (7 + 14) - 7 = 8 := by
  refine ⟨rfl, ?_, ?_, ?_, ?_, ?_, by decide, by decide⟩
  · intro p hp
    simp only [get_target_dates_two_weeks_ahead, TARGET_WINDOWS, weekday,
      List.map_cons, List.map_nil, List.mem_cons, List.not_mem_nil,
      or_false] at hp
    rcases hp with h | h | h | h <;> subst h <;> simp [weekday] <;> omega
  · intro p hp
    simp only [get_target_dates_two_weeks_ahead, TARGET_WINDOWS, weekday,
      List.map_cons, List.map_nil, List.mem_cons, List.not_mem_nil,
      or_false] at hp
    rcases hp with h | h | h | h <;> subst h <;> simp only [weekday] <;> omega
  · simp only [weekday]
    omega
  · simp only [weekday]
    omega
  · simp only [weekday]
    omega

/-- C1 witness: at `today = 1` the resolver's Monday entry is ordinal 15,
whose weekday is 0, and it lies within the target week. -/
theorem C1_date_resolver_witness :
    ((0 : Nat), (15 : Int)) ∈ get_target_dates_two_weeks_ahead 1 ∧
    weekday (15 : Int) = ((0 : Nat) : Int) ∧
    (1 : Int) + 14 - weekday (1 + 14) ≤ 15 ∧
    (15 : Int) ≤ 1 + 14 - weekday (1 + 14) + 6 := by
  refine ⟨by decide, (C1_date_resolver 1).2.1 (0, 15) (by decide), ?_, ?_⟩
  · exact ((C1_date_resolver 1).2.2.1 (0, 15) (by decide)).1
  · exact ((C1_date_resolver 1).2.2.1 (0, 15) (by decide)).2

/-- C5: if `today`'s weekday already equals a configured target weekday `wd`,
the resolver's date for `wd` is exactly `today + 14`: it always lands in the
week containing `today + 14`, never in the current week. -/
theorem C5_same_weekday_two_weeks (today : Int) (wd : Nat) (d : Int)
    (hmem : (wd, d) ∈ get_target_dates_two_weeks_ahead today)
    (hwd : weekday today = (wd : Int)) :
    d = today + 14 := by
  simp only [get_target_dates_two_weeks_ahead, TARGET_WINDOWS, weekday,
    List.map_cons, List.map_nil, List.mem_cons, List.not_mem_nil, or_false,
    Prod.mk.injEq] at hmem
  simp only [weekday] at hwd
  rcases hmem with ⟨h1, h2⟩ | ⟨h1, h2⟩ | ⟨h1, h2⟩ | ⟨h1, h2⟩ <;>
    subst h1 <;> subst h2 <;> simp at hwd <;> omega

/-- C5 witness: `today = 1` is a Monday (weekday 0); the Monday entry is
ordinal 15 = 1 + 14. -/
theorem C5_same_weekday_two_weeks_witness :
    ((0 : Nat), (15 : Int)) ∈ get_target_dates_two_weeks_ahead 1 ∧
    weekday 1 = ((0 : Nat) : Int) ∧ (15 : Int) = 1 + 14 :=
  ⟨by decide, by decide, C5_same_weekday_two_weeks 1 0 15 (by decide) (by decide)⟩

/-- C3: `match_targets` returns exactly those targets that are members of
`available`, each tested independently by exact membership; the result is
invariant under permutation of `available`; and on the two configured Sunday
windows with both available it returns exactly 2 hits. -/
theorem C3_matcher_exact_membership :
    (∀ available targets : List (String × String), ∀ t : String × String,
        t ∈ match_targets available targets ↔ t ∈ targets ∧ t ∈ available) ∧
    (∀ available avail2 targets : List (String × String),
        available.Perm avail2 →
        match_targets available targets = match_targets avail2 targets) ∧
    match_targets [("14:00", "15:30"), ("15:30", "17:00")] (targetsFor 6) =
      [("14:00", "15:30"), ("15:30", "17:00")] ∧
    (match_targets [("14:00", "15:30"), ("15:30", "17:00")] (targetsFor 6)).length = 2 := by
  refine ⟨?_, ?_, by decide, by decide⟩
  · intro available targets t
    simp [match_targets, List.mem_filter]
  · intro available avail2 targets hperm
    refine List.filter_congr fun x _ => ?_
    simp [hperm.mem_iff]

/-- C3 witness: permuting the two available Sunday slots leaves the hit list
unchanged. -/
theorem C3_matcher_exact_membership_witness :
    [("15:30", "17:00"), ("14:00", "15:30")].Perm
      [("14:00", "15:30"), ("15:30", "17:00")] ∧
    match_targets [("15:30", "17:00"), ("14:00", "15:30")] (targetsFor 6) =
      match_targets [("14:00", "15:30"), ("15:30", "17:00")] (targetsFor 6) :=
  ⟨by decide, C3_matcher_exact_membership.2.1 _ _ _ (by decide)⟩

/-- C4 counterexample: the claim says normalization removes every space,
non-breaking space and dash entirely, yielding the single canonical string
"20:0021:30".  The code instead splits on the dash and strips only the ends
of each part: in the label `"20:00 - 21: 30"` the interior space of the
second time survives, and the canonical form is a pair of strings, not a
concatenated dashless string. -/
theorem C4_counterexample :
    parseSlotLabel "20:00 - 21: 30" = some ("20:00", "21: 30") ∧
    ' ' ∈ "21: 30".data := by decide

/-- C4 (amended): the three raw variants "20:00 - 21:30" (ASCII hyphen and
spaces), "20:00–21:30" (en dash, no spaces) and
"20:00 - 21:30" (non-breaking spaces around an ASCII hyphen) all
normalize to one identical canonical form, the pair ("20:00", "21:30") â
outer whitespace including U+00A0 stripped, en/em dashes unified to the ASCII
hyphen, split on the hyphen, parts trimmed â and slot comparison is never
performed on raw text: every compared pair is the parse of some raw element
text. -/
theorem C4_normalization_variants :
    (parseSlotLabel "20:00 - 21:30" = some ("20:00", "21:30") ∧
     parseSlotLabel "20:00–21:30" = some ("20:00", "21:30") ∧
     parseSlotLabel "20:00 - 21:30" = some ("20:00", "21:30")) ∧
    (∀ texts : List String, ∀ p : String × String,
      p ∈ read_available_times texts →
      ∃ t ∈ texts, parseSlotLabel t = some p) := by
  refine ⟨by decide, fun texts p hp => ?_⟩
  obtain ⟨t, ht, _, hparse⟩ := (mem_read_available_times texts p).mp hp
  exact ⟨t, ht, hparse⟩

/-- C4 witness: the pair ("20:00", "21:30") read from the ASCII-hyphen label
is the parse of that label. -/
theorem C4_normalization_variants_witness :
    ("20:00", "21:30") ∈ read_available_times ["20:00 - 21:30"] ∧
    ∃ t ∈ ["20:00 - 21:30"], parseSlotLabel t = some ("20:00", "21:30") :=
  ⟨by decide,
   C4_normalization_variants.2 ["20:00 - 21:30"] ("20:00", "21:30") (by decide)⟩

/-- C10 counterexample: the claim says every returned pair splits into two
non-empty trimmed parts; but `read_available_times` never checks
non-emptiness â the element text `"12:00- "` (which contains a colon and a
dash) yields the pair ("12:00", "") with an empty second part. -/
theorem C10_counterexample :
    read_available_times ["12:00- "] = [("12:00", "")] ∧
    ("12:00", "") ∈ read_available_times ["12:00- "] ∧
    (("12:00", "") : String × String).2.data = [] := by decide

/-- C10 (amended): `read_available_times` returns a list sorted in ascending
lexicographic order with no duplicate pairs, and every returned pair is the
parse of some element text that contains a colon, contains a dash, and splits
on the dash into exactly two trimmed parts (which may be empty). -/
theorem C10_read_available_times_shape (texts : List String) :
    (read_available_times texts).Sorted slotLe ∧
    (read_available_times texts).Nodup ∧
    (∀ p ∈ read_available_times texts, ∃ t ∈ texts,
      xpathTimeFilter t = true ∧ parseSlotLabel t = some p) := by
  refine ⟨List.sorted_insertionSort slotLe _, ?_, ?_⟩
  · exact ((List.perm_insertionSort slotLe _).nodup_iff).mpr (List.nodup_dedup _)
  · intro p hp
    exact (mem_read_available_times texts p).mp hp

/-- C10 witness: on the single label "14:00 - 15:30" the output is sorted,
duplicate-free, and its one pair is the parse of that label. -/
theorem C10_read_available_times_shape_witness :
    (read_available_times ["14:00 - 15:30"]).Sorted slotLe ∧
    (read_available_times ["14:00 - 15:30"]).Nodup ∧
    (∃ t ∈ ["14:00 - 15:30"],
      xpathTimeFilter t = true ∧ parseSlotLabel t = some ("14:00", "15:30")) :=
  ⟨(C10_read_available_times_shape ["14:00 - 15:30"]).1,
   (C10_read_available_times_shape ["14:00 - 15:30"]).2.1,
   (C10_read_available_times_shape ["14:00 - 15:30"]).2.2 ("14:00", "15:30") (by decide)⟩

/-- C2 counterexample: the claim says a per-date navigation failure never
aborts the whole run and remaining dates are still processed.  In the code
the first navigation failure propagates out of the loop: with today =
ordinal 1 and a surface failing only for the Monday date 15, no date is
processed at all — in particular the Thursday date 18, whose navigation
would succeed, is never visited. -/
theorem C2_counterexample :
    (main 1 sMonFail).err = true ∧
    (main 1 sMonFail).processed = [] ∧
    ((3 : Nat), (18 : Int)) ∈ sorted_target_dates 1 ∧
    sMonFail.nav 18 ≠ none ∧
    (18 : Int) ∉ (main 1 sMonFail).processed := by decide

/-- C2 (amended): the code performs no retries; the first navigation failure
for a ScanDate propagates as an exception, so exactly the dates before it in
the iteration order are processed, the failing date and all later dates are
skipped, and the run ends with an error. -/
theorem C2_failure_aborts_run (today : Int) (s : Surface)
    (h1 : s.setTimeoutOk = true) (h2 : s.pageLoadOk = true)
    (h3 : select_duration s.dur = true)
    (pre : List (Nat × Int)) (wd : Nat) (d : Int) (rest : List (Nat × Int))
    (hsplit : sorted_target_dates today = pre ++ (wd, d) :: rest)
    (hpre : ∀ p ∈ pre, s.nav p.2 ≠ none)
    (hd : s.nav d = none) :
    (main today s).processed = pre.map Prod.snd ∧ (main today s).err = true := by
  unfold main
  simp only [h1, h2, h3, Bool.true_eq_false, if_false]
  rw [hsplit]
  exact ⟨(scanDates_failAt s wd d rest hd pre hpre).1,
    (scanDates_failAt s wd d rest hd pre hpre).2⟩

/-- C2 witness: on `sMonFail` the failing Monday is first, so nothing is
processed and the run errors. -/
theorem C2_failure_aborts_run_witness :
    (main 1 sMonFail).processed = [] ∧ (main 1 sMonFail).err = true :=
  C2_failure_aborts_run 1 sMonFail rfl rfl rfl [] 0 15 [(3, 18), (5, 20), (6, 21)]
    (by decide) (by decide) (by decide)

/-- C6: duration selection happens at most once per run and always before any
per-date scan event, and when the duration option cannot be found the run
aborts with no ScanDate processed and no hits. -/
theorem C6_duration_once_and_fatal (today : Int) (s : Surface)
    (h1 : s.setTimeoutOk = true) :
    (main today s).events.count Ev.durationSelected ≤ 1 ∧
    ((∃ e ∈ (main today s).events, isScanEv e = true) →
      (main today s).events.take 2 = [Ev.acquire, Ev.durationSelected]) ∧
    (s.pageLoadOk = true → select_duration s.dur = false →
      (main today s).processed = [] ∧ (main today s).hits = [] ∧
      (main today s).err = true ∧
      (main today s).events = [Ev.acquire, Ev.release]) := by
  rcases Bool.eq_false_or_eq_true s.pageLoadOk with h2 | h2
  swap
  · rw [main_pageLoad_fail today s h1 h2]
    refine ⟨by decide, ?_, fun hx => absurd (h2.symm.trans hx) (by decide)⟩
    rintro ⟨e, he, hscan⟩
    simp only [List.mem_cons, List.not_mem_nil, or_false] at he
    rcases he with rfl | rfl <;> simp [isScanEv] at hscan
  · rcases Bool.eq_false_or_eq_true (select_duration s.dur) with h3 | h3
    swap
    · rw [main_dur_fail today s h1 h2 h3]
      refine ⟨by decide, ?_, fun _ _ => ⟨rfl, rfl, rfl, rfl⟩⟩
      rintro ⟨e, he, hscan⟩
      simp only [List.mem_cons, List.not_mem_nil, or_false] at he
      rcases he with rfl | rfl <;> simp [isScanEv] at hscan
    · rw [main_full today s h1 h2 h3]
      have hdur : Ev.durationSelected ∉ (scanDates s (sorted_target_dates today)).2.2.2 := by
        intro hmem
        have hse := scanDates_events_scan s (sorted_target_dates today) _ hmem
        simp [isScanEv] at hse
      refine ⟨?_, fun _ => rfl, fun _ hx => absurd (h3.symm.trans hx) (by decide)⟩
      simp [List.count_cons, List.count_append, List.count_eq_zero.mpr hdur]

/-- C6 witness: on a surface where the option `"1,5 uur"` is nowhere found,
the run produces no processed date, no hits, an error, and only the
acquire/release events. -/
theorem C6_duration_once_and_fatal_witness :
    (main 1 sDurFail).processed = [] ∧ (main 1 sDurFail).hits = [] ∧
    (main 1 sDurFail).err = true ∧
    (main 1 sDurFail).events = [Ev.acquire, Ev.release] :=
  (C6_duration_once_and_fatal 1 sDurFail rfl).2.2 rfl rfl

/-- C7 counterexample: the claim says the orchestrator never skips a later
date because of an earlier date's outcome.  With today = ordinal 1 and a
surface failing only for the Thursday date 18, the Saturday date 20 — whose
navigation would succeed — is never processed. -/
theorem C7_counterexample :
    ((5 : Nat), (20 : Int)) ∈ sorted_target_dates 1 ∧
    sThuFail.nav 20 ≠ none ∧
    (main 1 sThuFail).processed = [15] ∧
    (20 : Int) ∉ (main 1 sThuFail).processed := by decide

/-- C7 (amended): when every resolved date's navigation succeeds, the
orchestrator visits the resolved dates exactly once each, in chronological
(strictly ascending) order, which coincides with the weekday-key order
because all dates lie in one Monday-anchored week; but an earlier date's
failure aborts the loop and skips the later dates. -/
theorem C7_chronological_when_all_succeed (today : Int) (s : Surface)
    (h1 : s.setTimeoutOk = true) (h2 : s.pageLoadOk = true)
    (h3 : select_duration s.dur = true)
    (hall : ∀ p ∈ sorted_target_dates today, s.nav p.2 ≠ none) :
    (main today s).processed = (sorted_target_dates today).map Prod.snd ∧
    List.Chain' (· < ·) ((sorted_target_dates today).map Prod.snd) ∧
    ((sorted_target_dates today).map Prod.snd).Nodup ∧
    sorted_target_dates today = get_target_dates_two_weeks_ahead today := by
  refine ⟨?_, ?_, ?_, sorted_target_dates_eq today⟩
  · unfold main
    simp only [h1, h2, h3, Bool.true_eq_false, if_false]
    exact (scanDates_all_ok s _ hall).1
  · rw [sorted_target_dates_eq]
    simp only [get_target_dates_two_weeks_ahead, TARGET_WINDOWS, weekday,
      List.map_cons, List.map_nil, Prod.snd, List.chain'_cons,
      List.chain'_singleton, and_true]
    omega
  · rw [sorted_target_dates_eq]
    simp only [get_target_dates_two_weeks_ahead, TARGET_WINDOWS, weekday,
      List.map_cons, List.map_nil, Prod.snd, List.nodup_cons, List.mem_cons,
      List.not_mem_nil, or_false, List.nodup_nil, and_true, not_or,
      not_false_iff]
    push_cast
    omega

/-- C7 witness: on a fully co-operative surface all four resolved dates are
processed in ascending order. -/
theorem C7_chronological_when_all_succeed_witness :
    (main 1 sC7ok).processed = (sorted_target_dates 1).map Prod.snd ∧
    List.Chain' (· < ·) ((sorted_target_dates 1).map Prod.snd) ∧
    ((sorted_target_dates 1).map Prod.snd).Nodup ∧
    sorted_target_dates 1 = get_target_dates_two_weeks_ahead 1 :=
  C7_chronological_when_all_succeed 1 sC7ok rfl rfl rfl (by decide)

/-- C8 counterexample: the claim says the session is released on every exit
path, including any failure raised at any point.  The call
`driver.set_page_load_timeout(60)` sits between session acquisition and the
`try` block: when it raises, `driver.quit()` never runs. -/
theorem C8_counterexample :
    (main 1 sNoTimeout).events = [Ev.acquire] ∧
    Ev.release ∉ (main 1 sNoTimeout).events := by decide

/-- C8 (amended): once the `try` block is entered (i.e. whenever
`set_page_load_timeout` does not raise), the session is released on every
exit path, success or failure, with exactly one acquisition and one release
scoped around the entire multi-date loop; only a failure of the single
statement between acquisition and the `try` escapes without release. -/
theorem C8_release_on_every_exit (today : Int) (s : Surface)
    (h : s.setTimeoutOk = true) :
    (main today s).events.head? = some Ev.acquire ∧
    (main today s).events.getLast? = some Ev.release ∧
    (main today s).events.count Ev.acquire = 1 ∧
    (main today s).events.count Ev.release = 1 := by
  rcases Bool.eq_false_or_eq_true s.pageLoadOk with h2 | h2
  swap
  · rw [main_pageLoad_fail today s h h2]
    exact ⟨rfl, rfl, by decide, by decide⟩
  · rcases Bool.eq_false_or_eq_true (select_duration s.dur) with h3 | h3
    swap
    · rw [main_dur_fail today s h h2 h3]
      exact ⟨rfl, rfl, by decide, by decide⟩
    · rw [main_full today s h h2 h3]
      have hscan := scanDates_events_scan s (sorted_target_dates today)
      have hacq : Ev.acquire ∉ (scanDates s (sorted_target_dates today)).2.2.2 := by
        intro hmem
        have hse := hscan _ hmem
        simp [isScanEv] at hse
      have hrel : Ev.release ∉ (scanDates s (sorted_target_dates today)).2.2.2 := by
        intro hmem
        have hse := hscan _ hmem
        simp [isScanEv] at hse
      refine ⟨rfl, ?_, ?_, ?_⟩
      · rw [show Ev.acquire :: Ev.durationSelected ::
            (scanDates s (sorted_target_dates today)).2.2.2 ++ [Ev.release] =
            (Ev.acquire :: Ev.durationSelected ::
              (scanDates s (sorted_target_dates today)).2.2.2) ++ [Ev.release] by
          simp]
        exact List.getLast?_concat _
      · simp [List.count_cons, List.count_append, List.count_eq_zero.mpr hacq]
      · simp [List.count_cons, List.count_append, List.count_eq_zero.mpr hrel]

/-- C8 witness: on a fully co-operative surface the run's event trace starts
with acquire, ends with release, and contains each exactly once. -/
theorem C8_release_on_every_exit_witness :
    (main 1 sAllOk).events.head? = some Ev.acquire ∧
    (main 1 sAllOk).events.getLast? = some Ev.release ∧
    (main 1 sAllOk).events.count Ev.acquire = 1 ∧
    (main 1 sAllOk).events.count Ev.release = 1 :=
  C8_release_on_every_exit 1 sAllOk rfl

/-- C9: the claim (and the source's own comment "Avoid disabled/outside-month
cells") says day selection clicks only a cell of the currently displayed
month.  The primary XPath excludes only cells whose class contains
`'disabled'` — an adjacent-month overflow cell with class
`"day outside-month"` passes the filter, and being first in document order it
is the one clicked, even though the genuine current-month cell for the same
day number is present. -/
theorem C9_overflow_cell_clicked :
    pick_date [overflowCell, currentMonthCell] 30 = some overflowCell ∧
    overflowCell.inDisplayedMonth = false ∧
    currentMonthCell.inDisplayedMonth = true := by decide

end Uithoorn
